import Mathlib

/-!
Shallow embedding of the UniswapV3TwapBot keeper (backend/main.py,
backend/twap_bot.py, backend/config.py).

The chain is modelled as a read-only oracle: a map from order id to an
optional `Order` (a `none` result models a reverted/failed `getOrder` RPC
call, i.e. the exception path in the Python code), plus the
`nextOrderId` counter and the current network gas price.  The bot's only
local state is the `active_orders` list of order ids (`TWAPBot.active_orders`
in main.py).  One tick of the scheduler (`check_and_execute_slices`) is a
fold over a snapshot copy of that list, exactly mirroring
`for order_id in self.active_orders.copy()` with the single
`current_time = int(time.time())` read at the top of the tick; removals
use `List.erase`, matching Python's `list.remove` (first occurrence).
Transaction submission is modelled as the `SliceSubmission` record the tick
appends whenever the Python code reaches the `execute_slice` call; the
result of the transaction (success or revert) does not influence any
control flow in the tick, so it is not modelled.
-/

namespace TwapBot

/-- The Order struct as decoded by `get_order` in twap_bot.py (lines 238-254):
a fixed-position tuple turned into named fields.  Addresses are opaque,
modelled as `Nat`; all other fields are unsigned integers or a boolean. -/
structure Order where
  orderId : Nat
  creator : Nat
  tokenIn : Nat
  tokenOut : Nat
  totalAmount : Nat
  interval : Nat
  duration : Nat
  sliceSize : Nat
  maxSlippageBps : Nat
  poolFee : Nat
  startTime : Nat
  slicesExecuted : Nat
  nextExecutionTime : Nat
  totalOut : Nat
  cancelled : Bool
deriving Repr, DecidableEq

/-- The on-chain contract, seen through the read interface the bot uses:
`getOrder` (which may fail: `none` models the exception path of a reverted
call), the `nextOrderId` counter, and `w3.eth.gas_price`. -/
structure Chain where
  nextOrderId : Nat
  orders : Nat → Option Order
  gasPrice : Nat

/-- twap_bot.py `get_order` (line 221): calls `getOrder(order_id)` on the
contract and returns the decoded order; an RPC failure propagates as an
exception, modelled by `none`. -/
def get_order (chain : Chain) (order_id : Nat) : Option Order :=
  chain.orders order_id

/-- A transaction submission: the observable effect of twap_bot.py
`execute_slice` building, signing and broadcasting `executeSlice(order_id)`
with `gasPrice := w3.eth.gas_price` (line 192-197). -/
structure SliceSubmission where
  orderId : Nat
  gasPrice : Nat
deriving Repr, DecidableEq

/-- twap_bot.py `execute_slice` (line 168): re-fetches the order (raising if
that fails, so no transaction is sent), then unconditionally builds and
broadcasts the `executeSlice` transaction at the current network gas price.
No gas-price ceiling is consulted anywhere on this path. -/
def execute_slice (chain : Chain) (order_id : Nat) : Option SliceSubmission :=
  match get_order chain order_id with
  | none => none
  | some _ => some { orderId := order_id, gasPrice := chain.gasPrice }

/-- config.py line 15: `MAX_GAS_PRICE = int(os.getenv("MAX_GAS_PRICE", "50"))`
(gwei), at its default value.  Nothing in main.py or twap_bot.py imports or
reads this constant. -/
def MAX_GAS_PRICE : Nat := 50

/-- Result of one scheduler tick: the bot's `active_orders` list after the
tick, the slice submissions attempted during the tick (in order), and the
order ids visited (fetched) by the tick's loop, in order. -/
structure TickResult where
  active_orders : List Nat
  submissions : List SliceSubmission
  visited : List Nat
deriving Repr, DecidableEq

/-- One iteration of the loop body of main.py `check_and_execute_slices`
(lines 70-96) for a single `order_id` from the snapshot:
fetch the order (an exception is logged and the loop continues, line 95);
if `cancelled`, remove from `active_orders` (line 75-78);
else if `current_time >= nextExecutionTime` (line 81):
  if `current_time > startTime + duration`, remove as expired (line 83-86);
  otherwise call `execute_slice` (line 90), whose own exception is caught
  and leaves the order tracked (line 92-93);
else leave the order untouched. -/
def tickStep (chain : Chain) (current_time : Nat) (acc : TickResult)
    (order_id : Nat) : TickResult :=
  let acc := { acc with visited := acc.visited ++ [order_id] }
  match get_order chain order_id with
  | none => acc
  | some order =>
    if order.cancelled then
      { acc with active_orders := acc.active_orders.erase order_id }
    else if order.nextExecutionTime ≤ current_time then
      if order.startTime + order.duration < current_time then
        { acc with active_orders := acc.active_orders.erase order_id }
      else
        { acc with
            submissions := acc.submissions ++ (execute_slice chain order_id).toList }
    else acc

/-- main.py `check_and_execute_slices` (lines 66-96): read the wall clock
once, then run the loop body over a snapshot copy of `active_orders`
(`self.active_orders.copy()`), threading the live list through. -/
def check_and_execute_slices (chain : Chain) (current_time : Nat)
    (active_orders : List Nat) : TickResult :=
  active_orders.foldl (tickStep chain current_time)
    { active_orders := active_orders, submissions := [], visited := [] }

/-- main.py `handle_new_order` (lines 98-102): a bare
`self.active_orders.append(order_id)`, with no membership check. -/
def handle_new_order (active_orders : List Nat) (order_id : Nat) : List Nat :=
  active_orders ++ [order_id]

/-- Result of the startup scan: the seeded `active_orders` list and the
order ids the scan attempted to fetch, in order. -/
structure LoadResult where
  active_orders : List Nat
  visited : List Nat
deriving Repr, DecidableEq

/-- One iteration of the loop body of main.py `_load_existing_orders`
(lines 39-56) for a single `order_id` in `range(next_order_id)`:
fetch the order (a failure is logged and the scan continues, line 55-56);
if not `cancelled` (line 44), and
`current_time <= startTime + duration and slicesExecuted < total_slices`
with `total_slices = duration // interval` (lines 45-50), append the id. -/
def loadStep (chain : Chain) (current_time : Nat) (acc : LoadResult)
    (order_id : Nat) : LoadResult :=
  let acc := { acc with visited := acc.visited ++ [order_id] }
  match get_order chain order_id with
  | none => acc
  | some order =>
    if order.cancelled = false then
      let total_slices := order.duration / order.interval
      if current_time ≤ order.startTime + order.duration ∧
          order.slicesExecuted < total_slices then
        { acc with active_orders := acc.active_orders ++ [order_id] }
      else acc
    else acc

/-- main.py `_load_existing_orders` (lines 33-64): read `nextOrderId`, scan
ids `0 .. nextOrderId-1` with the loop body above, starting from the empty
`active_orders` list set up in `__init__` (line 26).  `current_time` is the
wall-clock time of the scan (the claims about this function fix a single
unchanged time). -/
def load_existing_orders (chain : Chain) (current_time : Nat) : LoadResult :=
  (List.range chain.nextOrderId).foldl (loadStep chain current_time)
    { active_orders := [], visited := [] }

end TwapBot

namespace TwapBot

/-- The condition under which the tick's loop body (main.py lines 70-93)
reaches the `execute_slice` call for an id: the fetch succeeded, the order
is not cancelled, it is due (`current_time >= nextExecutionTime`) and it is
not past `startTime + duration`. -/
def dueSubmit (chain : Chain) (current_time : Nat) (order_id : Nat) : Bool :=
  match get_order chain order_id with
  | none => false
  | some o =>
    !o.cancelled && (decide (o.nextExecutionTime ≤ current_time) &&
      !decide (o.startTime + o.duration < current_time))

/-- The condition under which the tick's loop body removes an id from the
live list: the fetch succeeded and the order is cancelled (line 75), or it
is due and past `startTime + duration` (lines 81-86). -/
def tickRemoves (chain : Chain) (current_time : Nat) (order_id : Nat) : Bool :=
  match get_order chain order_id with
  | none => false
  | some o =>
    o.cancelled || (decide (o.nextExecutionTime ≤ current_time) &&
      decide (o.startTime + o.duration < current_time))

lemma tickStep_visited (c : Chain) (t : Nat) (acc : TickResult) (x : Nat) :
    (tickStep c t acc x).visited = acc.visited ++ [x] := by
  unfold tickStep
  cases h : get_order c x with
  | none => rfl
  | some o =>
    by_cases hc : o.cancelled
    · simp [hc]
    · by_cases hd : o.nextExecutionTime ≤ t
      · by_cases he : o.startTime + o.duration < t
        · simp [hc, hd, he]
        · simp [hc, hd, he]
      · simp [hc, hd]

lemma tickStep_active (c : Chain) (t : Nat) (acc : TickResult) (x : Nat) :
    (tickStep c t acc x).active_orders =
      if tickRemoves c t x then acc.active_orders.erase x
      else acc.active_orders := by
  unfold tickStep tickRemoves
  cases h : get_order c x with
  | none => rfl
  | some o =>
    by_cases hc : o.cancelled
    · simp [hc]
    · by_cases hd : o.nextExecutionTime ≤ t
      · by_cases he : o.startTime + o.duration < t
        · simp [hc, hd, he]
        · simp [hc, hd, he]
      · simp [hc, hd]

lemma tickStep_submissions (c : Chain) (t : Nat) (acc : TickResult) (x : Nat) :
    (tickStep c t acc x).submissions =
      acc.submissions ++
        (if dueSubmit c t x then [⟨x, c.gasPrice⟩] else []) := by
  unfold tickStep dueSubmit
  cases h : get_order c x with
  | none => simp
  | some o =>
    by_cases hc : o.cancelled
    · simp [hc]
    · by_cases hd : o.nextExecutionTime ≤ t
      · by_cases he : o.startTime + o.duration < t
        · simp [hc, hd, he]
        · simp [hc, hd, he, execute_slice, h]
      · simp [hc, hd]

/-- The effect of the tick on the live `active_orders` list, viewed as a
fold of conditional `erase` steps over the snapshot. -/
def tickPrune (chain : Chain) (current_time : Nat) (store snapshot : List Nat) :
    List Nat :=
  snapshot.foldl
    (fun s x => if tickRemoves chain current_time x then s.erase x else s) store

/-- Full characterization of one tick: the visited ids are exactly the
snapshot, the submissions are exactly the due ids at the network gas price,
and the final list is the conditional-erase fold. -/
lemma tick_foldl (c : Chain) (t : Nat) :
    ∀ (l : List Nat) (acc : TickResult),
      l.foldl (tickStep c t) acc =
        { active_orders := tickPrune c t acc.active_orders l,
          submissions := acc.submissions ++
            (l.filter (dueSubmit c t)).map (fun x => ⟨x, c.gasPrice⟩),
          visited := acc.visited ++ l } := by
  intro l
  induction l with
  | nil => intro acc; simp [tickPrune]
  | cons x rest ih =>
    intro acc
    rw [List.foldl_cons, ih]
    simp only [tickStep_visited, tickStep_active, tickStep_submissions,
      tickPrune, List.foldl_cons, List.filter_cons]
    by_cases hd : dueSubmit c t x
    · simp [hd, List.append_assoc]
    · simp [hd, List.append_assoc]

lemma tick_visited (c : Chain) (t : Nat) (l : List Nat) :
    (check_and_execute_slices c t l).visited = l := by
  unfold check_and_execute_slices
  rw [tick_foldl]
  simp

lemma tick_submissions (c : Chain) (t : Nat) (l : List Nat) :
    (check_and_execute_slices c t l).submissions =
      (l.filter (dueSubmit c t)).map (fun x => ⟨x, c.gasPrice⟩) := by
  unfold check_and_execute_slices
  rw [tick_foldl]
  simp

lemma tick_active (c : Chain) (t : Nat) (l : List Nat) :
    (check_and_execute_slices c t l).active_orders = tickPrune c t l l := by
  unfold check_and_execute_slices
  rw [tick_foldl]

/-- Membership in the tick's submissions, spelled out. -/
lemma mem_tick_submissions (c : Chain) (t : Nat) (l : List Nat)
    (a : SliceSubmission) :
    a ∈ (check_and_execute_slices c t l).submissions ↔
      a.orderId ∈ l ∧ dueSubmit c t a.orderId = true ∧
        a.gasPrice = c.gasPrice := by
  rw [tick_submissions]
  constructor
  · intro ha
    rcases List.mem_map.mp ha with ⟨x, hx, rfl⟩
    rcases List.mem_filter.mp hx with ⟨hxl, hxd⟩
    exact ⟨hxl, hxd, rfl⟩
  · rintro ⟨hl, hd, hg⟩
    apply List.mem_map.mpr
    refine ⟨a.orderId, List.mem_filter.mpr ⟨hl, hd⟩, ?_⟩
    cases a
    simp at hg
    simp [hg]

end TwapBot

namespace TwapBot

/-- If the tick's loop body removes an id whenever it visits it, then after
processing a snapshot containing at least as many occurrences of the id as
the live list does, no occurrence of the id survives. -/
lemma tickPrune_count_removed (c : Chain) (t : Nat) (id : Nat)
    (h : tickRemoves c t id = true) :
    ∀ (l store : List Nat), store.count id ≤ l.count id →
      (tickPrune c t store l).count id = 0 := by
  intro l
  induction l with
  | nil =>
    intro store hle
    simpa [tickPrune] using Nat.le_zero.mp (by simpa using hle)
  | cons x rest ih =>
    intro store hle
    simp only [tickPrune, List.foldl_cons] at *
    by_cases hx : x = id
    · subst hx
      rw [if_pos h]
      apply ih
      rw [List.count_erase_self]
      have := List.count_cons_self x rest
      omega
    · have hcount : ((x :: rest).count id) = rest.count id :=
        List.count_cons_of_ne (fun hid => hx hid.symm) rest
      by_cases hr : tickRemoves c t x
      · rw [if_pos hr]
        apply ih
        rw [List.count_erase_of_ne (fun hid => hx hid.symm)]
        omega
      · rw [if_neg hr]
        apply ih
        omega

/-- If the tick's loop body never removes an id (fetch failure, or an order
that is neither cancelled nor due-and-expired), the number of occurrences of
that id in the live list is unchanged by the tick. -/
lemma tickPrune_count_kept (c : Chain) (t : Nat) (id : Nat)
    (h : tickRemoves c t id = false) :
    ∀ (l store : List Nat), (tickPrune c t store l).count id = store.count id := by
  intro l
  induction l with
  | nil => intro store; simp [tickPrune]
  | cons x rest ih =>
    intro store
    simp only [tickPrune, List.foldl_cons] at *
    by_cases hx : x = id
    · subst hx
      rw [h, if_neg (by simp)]
      exact ih store
    · by_cases hr : tickRemoves c t x
      · rw [if_pos hr, ih]
        exact List.count_erase_of_ne (fun hid => hx hid.symm) store
      · rw [if_neg hr]
        exact ih store

/-- The tick only ever removes ids: every id in the post-tick list was in
the pre-tick list. -/
lemma tickPrune_subset (c : Chain) (t : Nat) :
    ∀ (l store : List Nat) (x : Nat), x ∈ tickPrune c t store l → x ∈ store := by
  intro l
  induction l with
  | nil => intro store x hx; simpa [tickPrune] using hx
  | cons y rest ih =>
    intro store x hx
    simp only [tickPrune, List.foldl_cons] at hx
    have hx' := ih _ x hx
    by_cases hr : tickRemoves c t y
    · rw [if_pos hr] at hx'
      exact List.mem_of_mem_erase hx'
    · rwa [if_neg hr] at hx'

/-- An id whose visit removes it does not survive a tick that starts from
its own snapshot, and no submission is attempted for an id whose visit
never reaches the submission branch. -/
lemma tick_not_mem_of_removes (c : Chain) (t : Nat) (id : Nat)
    (l : List Nat) (h : tickRemoves c t id = true) :
    id ∉ (check_and_execute_slices c t l).active_orders := by
  rw [tick_active]
  exact List.count_eq_zero.mp (tickPrune_count_removed c t id h l l (Nat.le_refl _))

/-- An id whose visit never removes it keeps its exact multiplicity in the
tracked list across the tick. -/
lemma tick_count_of_not_removes (c : Chain) (t : Nat) (id : Nat)
    (l : List Nat) (h : tickRemoves c t id = false) :
    (check_and_execute_slices c t l).active_orders.count id = l.count id := by
  rw [tick_active]
  exact tickPrune_count_kept c t id h l l

/-- No submission is made for an id that does not satisfy `dueSubmit`. -/
lemma tick_no_submission (c : Chain) (t : Nat) (id : Nat) (l : List Nat)
    (h : dueSubmit c t id = false) :
    ∀ a ∈ (check_and_execute_slices c t l).submissions, a.orderId ≠ id := by
  intro a ha hid
  rcases (mem_tick_submissions c t l a).mp ha with ⟨-, hd, -⟩
  rw [hid, h] at hd
  exact Bool.false_ne_true hd

end TwapBot

namespace TwapBot

/-- The eligibility test of main.py `_load_existing_orders` (lines 44-50)
for a single id: the fetch succeeded, `not cancelled`, the order has not
passed `startTime + duration`, and `slicesExecuted < duration // interval`. -/
def eligible (chain : Chain) (current_time : Nat) (order_id : Nat) : Bool :=
  match get_order chain order_id with
  | none => false
  | some o =>
    !o.cancelled && (decide (current_time ≤ o.startTime + o.duration) &&
      decide (o.slicesExecuted < o.duration / o.interval))

lemma loadStep_visited (c : Chain) (t : Nat) (acc : LoadResult) (x : Nat) :
    (loadStep c t acc x).visited = acc.visited ++ [x] := by
  unfold loadStep
  cases h : get_order c x with
  | none => rfl
  | some o =>
    by_cases hc : o.cancelled = false
    · by_cases he : t ≤ o.startTime + o.duration ∧
        o.slicesExecuted < o.duration / o.interval
      · simp [hc, he]
      · simp [hc, he]
    · simp [hc]

lemma loadStep_active (c : Chain) (t : Nat) (acc : LoadResult) (x : Nat) :
    (loadStep c t acc x).active_orders =
      acc.active_orders ++ (if eligible c t x then [x] else []) := by
  unfold loadStep eligible
  cases h : get_order c x with
  | none => simp
  | some o =>
    by_cases hc : o.cancelled = false
    · by_cases he : t ≤ o.startTime + o.duration ∧
        o.slicesExecuted < o.duration / o.interval
      · simp [hc, he.1, he.2]
      · rw [Classical.not_and_iff_or_not_not] at he
        rcases he with he | he
        · simp [hc, he]
        · simp [hc, he]
    · have hc' : o.cancelled = true := by
        cases hcv : o.cancelled
        · exact absurd hcv hc
        · rfl
      simp [hc, hc']

/-- Full characterization of the startup scan fold. -/
lemma load_foldl (c : Chain) (t : Nat) :
    ∀ (l : List Nat) (acc : LoadResult),
      l.foldl (loadStep c t) acc =
        { active_orders := acc.active_orders ++ l.filter (eligible c t),
          visited := acc.visited ++ l } := by
  intro l
  induction l with
  | nil => intro acc; simp
  | cons x rest ih =>
    intro acc
    rw [List.foldl_cons, ih]
    simp only [loadStep_visited, loadStep_active, List.filter_cons]
    by_cases he : eligible c t x
    · simp [he, List.append_assoc]
    · simp [he, List.append_assoc]

lemma load_active (c : Chain) (t : Nat) :
    (load_existing_orders c t).active_orders =
      (List.range c.nextOrderId).filter (eligible c t) := by
  unfold load_existing_orders
  rw [load_foldl]
  simp

lemma load_visited (c : Chain) (t : Nat) :
    (load_existing_orders c t).visited = List.range c.nextOrderId := by
  unfold load_existing_orders
  rw [load_foldl]
  simp

end TwapBot

namespace TwapBot

/-- C5: for a tracked, non-cancelled, non-expired order with
`nextExecutionTime = T`, a tick at wall-clock time `T - 1` submits no
execution transaction for it, and a tick at exactly `T` does submit one
(the due comparison in main.py line 81 is `current_time >= nextExecutionTime`). -/
theorem C5_due_time_correctness (c : Chain) (T : Nat) (id : Nat) (o : Order)
    (l : List Nat)
    (hfetch : get_order c id = some o)
    (hcancel : o.cancelled = false)
    (hnext : o.nextExecutionTime = T)
    (hpos : 0 < T)
    (hexp : T ≤ o.startTime + o.duration)
    (hmem : id ∈ l) :
    (∀ a ∈ (check_and_execute_slices c (T - 1) l).submissions, a.orderId ≠ id) ∧
      (∃ a ∈ (check_and_execute_slices c T l).submissions, a.orderId = id) := by
  constructor
  · apply tick_no_submission
    unfold dueSubmit
    rw [hfetch]
    have hlt : ¬ (o.nextExecutionTime ≤ T - 1) := by omega
    simp [hlt]
  · refine ⟨⟨id, c.gasPrice⟩, ?_, rfl⟩
    apply (mem_tick_submissions c T l _).mpr
    refine ⟨hmem, ?_, rfl⟩
    unfold dueSubmit
    rw [hfetch]
    have hdue : o.nextExecutionTime ≤ T := by omega
    have hnlt : ¬ (o.startTime + o.duration < T) := by omega
    simp [hcancel, hdue, hnlt]

def orderC5 : Order :=
  { orderId := 0, creator := 1, tokenIn := 2, tokenOut := 3, totalAmount := 1000,
    interval := 10, duration := 50, sliceSize := 200, maxSlippageBps := 50,
    poolFee := 3000, startTime := 0, slicesExecuted := 1,
    nextExecutionTime := 10, totalOut := 200, cancelled := false }

def chainC5 : Chain :=
  { nextOrderId := 1, orders := fun i => if i = 0 then some orderC5 else none,
    gasPrice := 30 }

theorem C5_witness :
    get_order chainC5 0 = some orderC5 ∧ orderC5.cancelled = false ∧
      orderC5.nextExecutionTime = 10 ∧ 0 < 10 ∧
      10 ≤ orderC5.startTime + orderC5.duration ∧ 0 ∈ [0] ∧
      ((∀ a ∈ (check_and_execute_slices chainC5 (10 - 1) [0]).submissions,
          a.orderId ≠ 0) ∧
        (∃ a ∈ (check_and_execute_slices chainC5 10 [0]).submissions,
          a.orderId = 0)) :=
  ⟨rfl, rfl, rfl, by decide, by decide, by decide,
    C5_due_time_correctness chainC5 10 0 orderC5 [0] rfl rfl rfl
      (by decide) (by decide) (by decide)⟩

/-- C6: an order whose freshly fetched state is `cancelled` is removed from
the tracked list by the tick, and no execution transaction is submitted for
it on that tick, regardless of its due status (main.py lines 74-78 run
before the submission branch). -/
theorem C6_cancelled_removed_never_submitted (c : Chain) (t : Nat) (id : Nat)
    (o : Order) (l : List Nat)
    (hfetch : get_order c id = some o)
    (hcancel : o.cancelled = true) :
    id ∉ (check_and_execute_slices c t l).active_orders ∧
      ∀ a ∈ (check_and_execute_slices c t l).submissions, a.orderId ≠ id := by
  have hrem : tickRemoves c t id = true := by
    unfold tickRemoves
    rw [hfetch]
    simp [hcancel]
  have hdue : dueSubmit c t id = false := by
    unfold dueSubmit
    rw [hfetch]
    simp [hcancel]
  exact ⟨tick_not_mem_of_removes c t id l hrem, tick_no_submission c t id l hdue⟩

def orderC6 : Order :=
  { orderC5 with nextExecutionTime := 5, cancelled := true }

def chainC6 : Chain :=
  { nextOrderId := 1, orders := fun i => if i = 0 then some orderC6 else none,
    gasPrice := 30 }

theorem C6_witness :
    get_order chainC6 0 = some orderC6 ∧ orderC6.cancelled = true ∧
      (0 ∉ (check_and_execute_slices chainC6 100 [0]).active_orders ∧
        ∀ a ∈ (check_and_execute_slices chainC6 100 [0]).submissions,
          a.orderId ≠ 0) :=
  ⟨rfl, rfl, C6_cancelled_removed_never_submitted chainC6 100 0 orderC6 [0] rfl rfl⟩

/-- C7: the startup scan seeds exactly the ids in `[0, nextOrderId)` whose
fetched order is not cancelled, not past `startTime + duration` at the
scan's wall-clock time, and has `slicesExecuted < duration // interval`
(main.py lines 39-51).  The scan is a pure function of the chain state and
the wall-clock time, so a second run against unchanged chain state and time
yields the same tracked set. -/
theorem C7_bootstrap_membership (c : Chain) (t : Nat) :
    ∀ id, id ∈ (load_existing_orders c t).active_orders ↔
      id < c.nextOrderId ∧ eligible c t id = true := by
  intro id
  rw [load_active]
  simp [List.mem_filter, List.mem_range]

def orderC7 : Order :=
  { orderC5 with slicesExecuted := 2 }

def chainC7 : Chain :=
  { nextOrderId := 2,
    orders := fun i => if i = 0 then some orderC7 else none, gasPrice := 30 }

theorem C7_witness :
    (0 ∈ (load_existing_orders chainC7 5).active_orders ↔
      0 < chainC7.nextOrderId ∧ eligible chainC7 5 0 = true) :=
  C7_bootstrap_membership chainC7 5 0

/-- C9: a fetch failure for one order id (modelled by `get_order` returning
`none` for that id) aborts neither the tick's per-order loop nor the
startup scan: the tick still visits every id of its snapshot, and the scan
still visits every id in `[0, nextOrderId)` (the per-id try/except blocks
at main.py lines 55-56 and 95-96). -/
theorem C9_failure_isolation (c : Chain) (t : Nat) (l : List Nat) (f : Nat)
    (hfail : get_order c f = none) :
    (check_and_execute_slices c t l).visited = l ∧
      (load_existing_orders c t).visited = List.range c.nextOrderId ∧
      f ∉ (load_existing_orders c t).active_orders := by
  refine ⟨tick_visited c t l, load_visited c t, ?_⟩
  intro hmem
  rw [load_active] at hmem
  have helig := (List.mem_filter.mp hmem).2
  unfold eligible at helig
  rw [hfail] at helig
  exact Bool.false_ne_true helig

def chainC9 : Chain :=
  { nextOrderId := 3,
    orders := fun i => if i = 1 then some orderC5 else none, gasPrice := 30 }

theorem C9_witness :
    get_order chainC9 0 = none ∧
      ((check_and_execute_slices chainC9 7 [0, 1, 2]).visited = [0, 1, 2] ∧
        (load_existing_orders chainC9 7).visited = List.range 3 ∧
        0 ∉ (load_existing_orders chainC9 7).active_orders) :=
  ⟨rfl, C9_failure_isolation chainC9 7 [0, 1, 2] 0 rfl⟩

/-- C10: a tick evaluates all orders against the single wall-clock value
read at its start (the one `current_time` parameter, main.py line 68) and
iterates over a snapshot copy of the tracked list (line 70): the visited
ids are exactly the snapshot, unaffected by the removals the tick itself
performs, and no id outside the snapshot is processed. -/
theorem C10_snapshot_tick (c : Chain) (t : Nat) (l : List Nat) :
    (check_and_execute_slices c t l).visited = l ∧
      ∀ id ∈ (check_and_execute_slices c t l).active_orders, id ∈ l := by
  refine ⟨tick_visited c t l, ?_⟩
  intro id hid
  rw [tick_active] at hid
  exact tickPrune_subset c t l l id hid

theorem C10_witness :
    (check_and_execute_slices chainC5 10 [0]).visited = [0] ∧
      ∀ id ∈ (check_and_execute_slices chainC5 10 [0]).active_orders,
        id ∈ [0] :=
  C10_snapshot_tick chainC5 10 [0]

end TwapBot

namespace TwapBot

/-- An order whose slices are all executed: `slicesExecuted = 5 =
duration // interval`, not cancelled, with the contract's
`nextExecutionTime` advanced to `startTime + duration`. -/
def orderC1 : Order :=
  { orderId := 0, creator := 1, tokenIn := 2, tokenOut := 3, totalAmount := 1000,
    interval := 10, duration := 50, sliceSize := 200, maxSlippageBps := 50,
    poolFee := 3000, startTime := 0, slicesExecuted := 5,
    nextExecutionTime := 50, totalOut := 1000, cancelled := false }

def chainC1 : Chain :=
  { nextOrderId := 1, orders := fun i => if i = 0 then some orderC1 else none,
    gasPrice := 30 }

/-- C1: the tick contains no completion check.  At time 50 the fully
executed order `orderC1` (with `slicesExecuted = duration // interval = 5`,
not cancelled, not yet past `startTime + duration`) is left in the tracked
list by `check_and_execute_slices`, and a further slice submission is
attempted for it — the comment at main.py line 74 says "Skip if order is
cancelled or completed" but lines 75-93 only test `cancelled`. -/
theorem C1_completed_order_kept_and_submitted :
    orderC1.duration / orderC1.interval ≤ orderC1.slicesExecuted ∧
      orderC1.cancelled = false ∧
      (check_and_execute_slices chainC1 50 [0]).active_orders = [0] ∧
      (check_and_execute_slices chainC1 50 [0]).submissions =
        [{ orderId := 0, gasPrice := 30 }] := by
  refine ⟨by decide, rfl, ?_, ?_⟩ <;> decide

/-- An order past its `startTime + duration` whose `nextExecutionTime` is
still in the future at the tick. -/
def orderC2 : Order :=
  { orderC1 with slicesExecuted := 3, nextExecutionTime := 100 }

def chainC2 : Chain :=
  { nextOrderId := 1, orders := fun i => if i = 0 then some orderC2 else none,
    gasPrice := 30 }

/-- C2 counterexample: at time 60 the order `orderC2` satisfies
`currentTime > startTime + duration` (60 > 50) but
`currentTime < nextExecutionTime` (60 < 100); the tick leaves it in the
tracked list, because the expiry test at main.py line 83 is nested inside
the due test at line 81 — refuting the claim that such an order is removed
regardless of due status. -/
theorem C2_expired_not_due_stays_tracked :
    orderC2.startTime + orderC2.duration < 60 ∧ 60 < orderC2.nextExecutionTime ∧
      (check_and_execute_slices chainC2 60 [0]).active_orders = [0] := by
  refine ⟨by decide, by decide, ?_⟩
  decide

/-- C2 (amended): an order with `currentTime > startTime + duration` is
removed by the tick and no slice is submitted for it, provided the tick
also finds it due (`currentTime >= nextExecutionTime`); the expiry test
runs inside the due branch (main.py lines 81-86), before the submission. -/
theorem C2_expired_due_removed_without_submission (c : Chain) (t : Nat)
    (id : Nat) (o : Order) (l : List Nat)
    (hfetch : get_order c id = some o)
    (hexp : o.startTime + o.duration < t)
    (hdue : o.nextExecutionTime ≤ t) :
    id ∉ (check_and_execute_slices c t l).active_orders ∧
      ∀ a ∈ (check_and_execute_slices c t l).submissions, a.orderId ≠ id := by
  have hrem : tickRemoves c t id = true := by
    unfold tickRemoves
    rw [hfetch]
    cases hc : o.cancelled <;> simp [hc, hdue, hexp]
  have hsub : dueSubmit c t id = false := by
    unfold dueSubmit
    rw [hfetch]
    simp [hexp]
  exact ⟨tick_not_mem_of_removes c t id l hrem, tick_no_submission c t id l hsub⟩

/-- An order past `startTime + duration` whose `nextExecutionTime` has also
passed. -/
def orderC2w : Order :=
  { orderC1 with slicesExecuted := 3, nextExecutionTime := 40 }

def chainC2w : Chain :=
  { nextOrderId := 1, orders := fun i => if i = 0 then some orderC2w else none,
    gasPrice := 30 }

theorem C2_witness :
    get_order chainC2w 0 = some orderC2w ∧
      orderC2w.startTime + orderC2w.duration < 60 ∧
      orderC2w.nextExecutionTime ≤ 60 ∧
      (0 ∉ (check_and_execute_slices chainC2w 60 [0]).active_orders ∧
        ∀ a ∈ (check_and_execute_slices chainC2w 60 [0]).submissions,
          a.orderId ≠ 0) :=
  ⟨rfl, by decide, by decide,
    C2_expired_due_removed_without_submission chainC2w 60 0 orderC2w [0] rfl
      (by decide) (by decide)⟩

/-- A due, active order fetched while the network gas price (100 gwei) is
far above the configured ceiling `MAX_GAS_PRICE` (50 gwei). -/
def orderC3 : Order :=
  { orderC1 with slicesExecuted := 3, nextExecutionTime := 30 }

def chainC3 : Chain :=
  { nextOrderId := 1, orders := fun i => if i = 0 then some orderC3 else none,
    gasPrice := 100 }

/-- C3: no gas-price guard exists on the submission path.  With the network
gas price at 100 gwei, above `MAX_GAS_PRICE = 50`, the tick still submits
the execution transaction for the due order, at the full network price
(`execute_slice` uses `w3.eth.gas_price` unconditionally, twap_bot.py
line 196; config.py's `MAX_GAS_PRICE` is never imported or read). -/
theorem C3_high_gas_still_submitted :
    MAX_GAS_PRICE < chainC3.gasPrice ∧
      (check_and_execute_slices chainC3 30 [0]).submissions =
        [{ orderId := 0, gasPrice := 100 }] := by
  refine ⟨by decide, ?_⟩
  decide

/-- C4: `handle_new_order` is a bare list append (main.py line 102), so
delivering the same order id twice leaves two occurrences in the tracked
list — insertion is not idempotent and the second insert is not a no-op. -/
theorem C4_double_insert_two_occurrences :
    (handle_new_order (handle_new_order [] 5) 5).count 5 = 2 := by decide

def chainC8 : Chain :=
  { nextOrderId := 1, orders := fun _ => none, gasPrice := 30 }

/-- C8 counterexample: when the fetch of tracked id 3 fails (order not
found), the tick leaves 3 in the tracked list: the handler at main.py
lines 95-96 only logs and continues, it does not remove the id — refuting
the claim that the id is dropped from tracking. -/
theorem C8_fetch_failure_id_not_dropped :
    get_order chainC8 3 = none ∧
      (check_and_execute_slices chainC8 0 [3]).active_orders = [3] := by
  refine ⟨rfl, ?_⟩
  decide

/-- C8 (amended): when the per-order fetch fails for a tracked id, the
failure is logged and the id stays in the tracked list with its
multiplicity unchanged (to be retried on a later tick), and no slice is
submitted for it on this tick. -/
theorem C8_fetch_failure_keeps_tracking (c : Chain) (t : Nat) (id : Nat)
    (l : List Nat) (hfail : get_order c id = none) :
    (check_and_execute_slices c t l).active_orders.count id = l.count id ∧
      ∀ a ∈ (check_and_execute_slices c t l).submissions, a.orderId ≠ id := by
  have hrem : tickRemoves c t id = false := by
    unfold tickRemoves
    rw [hfail]
  have hsub : dueSubmit c t id = false := by
    unfold dueSubmit
    rw [hfail]
  exact ⟨tick_count_of_not_removes c t id l hrem, tick_no_submission c t id l hsub⟩

theorem C8_witness :
    get_order chainC8 3 = none ∧
      ((check_and_execute_slices chainC8 0 [3]).active_orders.count 3 =
          [3].count 3 ∧
        ∀ a ∈ (check_and_execute_slices chainC8 0 [3]).submissions,
          a.orderId ≠ 3) :=
  ⟨rfl, C8_fetch_failure_keeps_tracking chainC8 0 3 [3] rfl⟩

end TwapBot
